import Mathlib

/-!
Verification development for the BowBot guild-economy backend.

The Python sources are shallowly embedded as executable Lean definitions:

* Python `dict` documents (server-config / tiktok sub-documents) are
  embedded as insertion-ordered association lists of `JVal` values
  (`JObj`); `dict` lookup / item-assignment / `setdefault` are `lookupA`,
  `setA` and the explicit branches of `deep_merge`.
* Machine integers are `Int` (Python ints are unbounded, so no modular
  wrap is needed); Discord snowflake ids are `Nat` and are converted with
  `toString` where the source applies `str(...)`.
* Code that can raise returns `Except PyErr`; functions that mutate global
  state (the Supabase tables, the two TTL caches, the logger) are explicit
  state-passing functions on `DBState`, returning the state next to the
  result so that writes performed before an exception survive it, exactly
  as in the source.
-/

namespace BowBot

/-- A Python value as stored in the nested configuration documents.
Only mappings recurse in `deep_merge`; every other value (including
lists, which `isinstance(value, dict)` rejects) is an atomic leaf. -/
inductive JVal where
  | jnull : JVal
  | jbool (b : Bool) : JVal
  | jint (n : Int) : JVal
  /-- a float literal, kept as the exact rational `num / den`
      (the sources never compute with these values) -/
  | jfloat (num : Int) (den : Nat) : JVal
  | jstr (s : String) : JVal
  /-- a list value (channel-id lists); atomic for merging purposes -/
  | jlist (l : List String) : JVal
  | jobj (fields : List (String × JVal)) : JVal
deriving Repr

/-- A Python `dict` document: insertion-ordered association list. -/
abbrev JObj := List (String × JVal)

/-- Python `d[k]` lookup (first occurrence; a real `dict` has unique keys). -/
def lookupA (k : String) : JObj → Option JVal
  | [] => none
  | (k', v) :: rest => if k' = k then some v else lookupA k rest

/-- Python `d[k] = v`: replace in place if the key exists, else append,
mirroring CPython dict item assignment. -/
def setA (k : String) (v : JVal) : JObj → JObj
  | [] => [(k, v)]
  | (k', v') :: rest => if k' = k then (k', v) :: rest else (k', v') :: setA k v rest

/-- Errors a modelled Python call can raise. -/
inductive PyErr where
  | keyErr : PyErr      -- KeyError
  | typeErr : PyErr     -- TypeError / AttributeError on a non-dict node
  | valueErr : PyErr    -- ValueError
  | dbErr : PyErr       -- a raised database failure
  | injected : PyErr    -- an exception injected mid-session
deriving Repr, DecidableEq

/-- Embeds `supabase_client.deep_merge(source, destination)`.

For every `key, value` in `source`: if `value` is a dict, the code runs
`node = destination.setdefault(key, {})` and recurses into `node`;
otherwise `destination[key] = value`.  When `destination[key]` exists but
is not a dict, `setdefault` returns that non-dict node, and the recursive
call raises as soon as it tries to write into it — `TypeError` on item
assignment when the first colliding source item is a non-mapping,
`AttributeError` on `setdefault` when it is itself a mapping — i.e.
whenever the source sub-dict is non-empty; an empty source sub-dict
loops zero times and leaves the node unchanged.  That raising path is the
`none` result (the embedding keeps only that the call raises, not the
exception's class). -/
def deep_merge : JObj → JObj → Option JObj
  | [], dst => some dst
  | (k, JVal.jobj m) :: rest, dst =>
      match lookupA k dst with
      | some (JVal.jobj n) =>
          match deep_merge m n with
          | some n' => deep_merge rest (setA k (JVal.jobj n') dst)
          | none => none
      | some _ =>
          -- `setdefault` returned a non-dict node: recursing into it
          -- raises unless the source sub-dict is empty.
          if m.isEmpty then deep_merge rest dst else none
      | none =>
          -- key absent: `setdefault` appends a fresh `{}` and the
          -- recursion fills it in place.
          match deep_merge m [] with
          | some n' => deep_merge rest (dst ++ [(k, JVal.jobj n')])
          | none => none
  | (k, v) :: rest, dst => deep_merge rest (setA k v dst)
termination_by src _ => sizeOf src

/-- Is this value a nested mapping? (`isinstance(value, dict)`) -/
def isObj : JVal → Bool
  | JVal.jobj _ => true
  | _ => false

mutual
/-- Well-formedness of a value: every nested mapping has unique keys. -/
def wfVal : JVal → Bool
  | JVal.jobj fs => wfObj fs
  | _ => true
termination_by v => sizeOf v

/-- Well-formedness of a document: keys are unique at every level,
as they necessarily are for a Python `dict`. -/
def wfObj : JObj → Bool
  | [] => true
  | (k, v) :: rest =>
      !((rest.map Prod.fst).contains k) && wfVal v && wfObj rest
termination_by l => sizeOf l
end

/-! ## The Supabase client layer (`src/utils/supabase_client.py`)

Tables are lists of typed rows; the two module-level caches are keyed
functions; the wall clock is a `Nat` field of the state (seconds).  The
only injected failure is the `economy_logs` insert (`logInsertFails`),
which is the failure mode the error-handling claims are about. -/

/-- A row of the `economy` table (`EconomyData`).  The `tiktok`
sub-document is kept as a `JObj` so that `update_user_economy`'s
deep-merge path is the same `deep_merge` as for configurations. -/
structure EconRow where
  guild_id : String
  user_id : String
  balance : Int
  last_work : Option String
  last_steal : Option String
  participant : Bool
  tiktok : JObj
deriving Repr

/-- A row of the `server_configs` table (`ServerConfig`).  The nested
`economy` / `moneydrop` sub-documents are kept as `JObj` because stored
rows may be partial (older rows lacking newly added fields).  `cmdPfx`
embeds the command-invocation "pre fix" field. -/
structure ServerRow where
  guild_id : String
  notes : Option String
  cmdPfx : String
  embed_color : String
  allowed_channels : List String
  economy : JObj
  moneydrop : JObj
  update_log : Option String
  config_log : Option String
  streamer : Option String
deriving Repr

/-- The `type` column of `economy_logs`: who initiated the action. -/
inductive Initiator where
  | BOT : Initiator
  | USER : Initiator
  | TIKTOK : Initiator
deriving Repr, DecidableEq

/-- A row of the append-only `economy_logs` table (`EconomyLog`); the
auto-incremented `id` column is assigned by the store and not modelled. -/
structure LogRow where
  guild_id : String
  user_id : String
  action : String
  amount : Int
  type : Initiator
  target_user_id : Option String
  timestamp : String
deriving Repr

/-- Embeds `CachedData`: a cached document with its refresh timestamp. -/
structure CacheEntry (α : Type) where
  updated_at : Nat
  data : α

/-- Constant `TTL = 60 * 10` seconds. -/
def TTL : Nat := 60 * 10

def DEFAULT_MONEY_DROP_CONFIG : JObj :=
  [("enabled", JVal.jbool false),
   ("chance", JVal.jfloat 5 100),
   ("min_amount", JVal.jint 50),
   ("max_amount", JVal.jint 150),
   ("allowed_channels", JVal.jlist ["-1"])]

def DEFAULT_ECONOMY_CONFIG : JObj :=
  [("work_cooldown_hours", JVal.jint 1),
   ("steal_cooldown_hours", JVal.jint 6),
   ("work_min_amount", JVal.jint 50),
   ("work_max_amount", JVal.jint 500),
   ("steal_chance", JVal.jfloat 65 100),
   ("steal_penalty", JVal.jint 100),
   ("steal_max_percentage", JVal.jfloat 25 100),
   ("starting_balance", JVal.jint 1000),
   ("currency_name", JVal.jstr "pounds"),
   ("currency_symbol", JVal.jstr "£"),
   ("log_channel", JVal.jnull)]

def DEFAULT_TIKTOK_DATA : JObj :=
  [("username", JVal.jnull), ("id", JVal.jnull), ("code", JVal.jnull),
   ("code_expires", JVal.jnull), ("link", JVal.jnull)]

/-- The module-level mutable state of `supabase_client.py` together with
the remote tables it talks to. -/
structure DBState where
  /-- the `economy` table -/
  econ : List EconRow
  /-- the `server_configs` table -/
  configs : List ServerRow
  /-- the `economy_logs` table (append-only) -/
  econLogs : List LogRow
  /-- `ECONOMY_CACHE`, keyed by `(str(guild_id), str(user_id))` -/
  econCache : String × String → Option (CacheEntry EconRow)
  /-- `SERVER_CONFIG_CACHE`, keyed by `str(guild_id)` -/
  configCache : String → Option (CacheEntry ServerRow)
  /-- current wall-clock time in seconds -/
  now : Nat
  /-- failure injection: the next `economy_logs` insert raises -/
  logInsertFails : Bool
  /-- number of `logger.error` reports emitted so far -/
  errorReports : Nat

/-- Embeds `cache_upsert("economy", row)`: `determine_cache` builds the key
`(str(guild_id), str(user_id))` only when both values are truthy
(non-empty); otherwise the upsert is a no-op ("cache miss"). -/
def cacheUpsertEcon (row : EconRow) (s : DBState) : DBState :=
  if row.user_id ≠ "" ∧ row.guild_id ≠ "" then
    { s with econCache := fun k =>
        if k = (row.guild_id, row.user_id) then some ⟨s.now, row⟩ else s.econCache k }
  else s

/-- Embeds `cache_retrieve("economy", {guild_id, user_id})` with integer
conditions: the key exists only when both ids are truthy (non-zero), and
a hit requires `now - updated_at < TTL`. -/
def cacheRetrieveEcon (g u : Nat) (s : DBState) : Option EconRow :=
  if u ≠ 0 ∧ g ≠ 0 then
    match s.econCache (toString g, toString u) with
    | some e => if s.now - e.updated_at < TTL then some e.data else none
    | none => none
  else none

/-- Embeds `cache_upsert("server_configs", row)`: keyed by `str(guild_id)`. -/
def cacheUpsertConfig (row : ServerRow) (s : DBState) : DBState :=
  if row.guild_id ≠ "" then
    { s with configCache := fun k =>
        if k = row.guild_id then some ⟨s.now, row⟩ else s.configCache k }
  else s

/-- Embeds `cache_retrieve("server_configs", {guild_id})`. -/
def cacheRetrieveConfig (g : Nat) (s : DBState) : Option ServerRow :=
  match s.configCache (toString g) with
  | some e => if s.now - e.updated_at < TTL then some e.data else none
  | none => none

/-- the store query `select * from economy where guild_id = g and user_id = u`
(ids serialized with `str`). -/
def econSelect (g u : Nat) (db : List EconRow) : List EconRow :=
  db.filter (fun r => r.guild_id == toString g && r.user_id == toString u)

/-- the store query `select * from server_configs where guild_id = g`. -/
def configSelect (g : Nat) (db : List ServerRow) : List ServerRow :=
  db.filter (fun r => r.guild_id == toString g)

/-- Embeds `retrieve("economy", {guild_id, user_id})`: cache first, then the
store; every row returned by the store is upserted into the cache. -/
def retrieveEcon (g u : Nat) (s : DBState) : List EconRow × DBState :=
  match cacheRetrieveEcon g u s with
  | some row => ([row], s)
  | none =>
      let data := econSelect g u s.econ
      (data, data.foldl (fun st r => cacheUpsertEcon r st) s)

/-- Embeds `retrieve("server_configs", {guild_id})`. -/
def retrieveConfig (g : Nat) (s : DBState) : List ServerRow × DBState :=
  match cacheRetrieveConfig g s with
  | some row => ([row], s)
  | none =>
      let data := configSelect g s.configs
      (data, data.foldl (fun st r => cacheUpsertConfig r st) s)

/-- Embeds `create("economy", row)`: insert into the store, then cache. -/
def createEcon (row : EconRow) (s : DBState) : DBState :=
  cacheUpsertEcon row { s with econ := s.econ ++ [row] }

/-- Embeds `create("server_configs", row)`. -/
def createConfig (row : ServerRow) (s : DBState) : DBState :=
  cacheUpsertConfig row { s with configs := s.configs ++ [row] }

/-- the default document `get_server_config` synthesizes on a store miss. -/
def defaultServerRow (g : Nat) : ServerRow :=
  { guild_id := toString g, notes := none, cmdPfx := "-",
    embed_color := "#0000FF", allowed_channels := [],
    economy := DEFAULT_ECONOMY_CONFIG, moneydrop := DEFAULT_MONEY_DROP_CONFIG,
    update_log := none, config_log := none, streamer := none }

/-- Embeds `get_server_config(guild_id)`: return the first retrieved row as-is,
or create and return the default document when nothing is stored. -/
def get_server_config (g : Nat) (s : DBState) : ServerRow × DBState :=
  match retrieveConfig g s with
  | (row :: _, s₁) => (row, s₁)
  | ([], s₁) =>
      let row := defaultServerRow g
      (row, createConfig row s₁)

/-- Embeds `get_user_economy_data(guild_id, user_id)`: retrieve, or lazily create
with `server_config['economy']['starting_balance']`.  A stored config
whose economy sub-document lacks `starting_balance` makes that subscript
raise `KeyError` (a non-integer value would likewise break the typed
row), which is the `error` result. -/
def get_user_economy_data (g u : Nat) (s : DBState) :
    Except PyErr EconRow × DBState :=
  match retrieveEcon g u s with
  | (row :: _, s₁) => (Except.ok row, s₁)
  | ([], s₁) =>
      match get_server_config g s₁ with
      | (cfg, s₂) =>
      match lookupA "starting_balance" cfg.economy with
      | some (JVal.jint sb) =>
          let row : EconRow :=
            { guild_id := toString g, user_id := toString u, balance := sb,
              last_work := none, last_steal := none, participant := false,
              tiktok := DEFAULT_TIKTOK_DATA }
          (Except.ok row, createEcon row s₂)
      | some _ => (Except.error PyErr.typeErr, s₂)
      | none => (Except.error PyErr.keyErr, s₂)

/-- The attribute dictionary passed to `update("economy", ...)`:
a partial row (absent keys are not written). -/
structure EconAttrs where
  balance : Option Int := none
  participant : Option Bool := none
  last_work : Option (Option String) := none
  last_steal : Option (Option String) := none
  tiktok : Option JObj := none

/-- Checks `if update_data:` — is the attribute dictionary empty? -/
def econAttrsEmpty (a : EconAttrs) : Bool :=
  a.balance.isNone && a.participant.isNone && a.last_work.isNone &&
  a.last_steal.isNone && a.tiktok.isNone

/-- apply a PATCH body to one row. -/
def applyEconAttrs (a : EconAttrs) (r : EconRow) : EconRow :=
  { r with
    balance := a.balance.getD r.balance,
    participant := a.participant.getD r.participant,
    last_work := a.last_work.getD r.last_work,
    last_steal := a.last_steal.getD r.last_steal,
    tiktok := a.tiktok.getD r.tiktok }

/-- The equality conjunction of an `update`/`retrieve` call on the
`economy` table; both conditions optional. -/
structure EconConds where
  guild_id : Option Nat := none
  user_id : Option Nat := none

def econMatches (c : EconConds) (r : EconRow) : Bool :=
  (match c.guild_id with
   | some g => r.guild_id == toString g
   | none => true) &&
  (match c.user_id with
   | some u => r.user_id == toString u
   | none => true)

/-- Embeds `update("economy", attributes, conditions)`: the PATCH applies the
attributes to every row matching the equality conjunction — to every row
of the table when no conditions are given — and then the rows matching
the same conditions are re-selected and upserted into the cache. -/
def updateEconTable (a : EconAttrs) (c : EconConds) (s : DBState) : DBState :=
  let db' := s.econ.map (fun r => if econMatches c r then applyEconAttrs a r else r)
  let s₁ := { s with econ := db' }
  (db'.filter (econMatches c)).foldl (fun st r => cacheUpsertEcon r st) s₁

/-- Embeds `update_user_economy(guild_id, user_id, data)`: the `tiktok` key is
deep-merged onto a copy of the current value, every other key passes
through — and the `update("economy", update_data)` call at the end
passes NO conditions, so the PATCH is unfiltered. -/
def update_user_economy (g u : Nat) (data : EconAttrs) (s : DBState) :
    Except PyErr Unit × DBState :=
  match data.tiktok with
  | none =>
      if econAttrsEmpty data then (Except.ok (), s)
      else (Except.ok (), updateEconTable data {} s)
  | some tk =>
      match get_user_economy_data g u s with
      | (Except.error e, s₁) => (Except.error e, s₁)
      | (Except.ok cur, s₁) =>
          match deep_merge tk cur.tiktok with
          | none => (Except.error PyErr.typeErr, s₁)
          | some merged =>
              (Except.ok (), updateEconTable { data with tiktok := some merged } {} s₁)

/-- Embeds `log_economy_action(...)`: insert one row into `economy_logs`.  On an
insert failure the handler calls `logger.error(...)` (one report) and
then re-raises the exception (`raise e`). -/
def log_economy_action (g u : Nat) (action : String) (amount : Int)
    (ty : Initiator) (target : Option Nat) (s : DBState) :
    Except PyErr Unit × DBState :=
  let row : LogRow :=
    { action := action, amount := amount, type := ty,
      target_user_id :=
        match target with
        | some t => if t = 0 then none else some (toString t)
        | none => none,
      guild_id := toString g, user_id := toString u,
      timestamp := toString s.now }
  if s.logInsertFails then
    (Except.error PyErr.dbErr, { s with errorReports := s.errorReports + 1 })
  else
    (Except.ok (), { s with econLogs := s.econLogs ++ [row] })

/-- Embeds `update_user_balance(guild_id, user_id, change, action, type, target)`:
ensure the record exists, add the change (no clamping), persist
`{balance, participant: True}` through `update_user_economy`, append one
ledger row, return the new balance.  No step is wrapped in `try`, so a
failure in any step propagates to the caller with all earlier writes
kept. -/
def update_user_balance (g u : Nat) (change : Int) (action : String)
    (ty : Initiator) (target : Option Nat) (s : DBState) :
    Except PyErr Int × DBState :=
  match get_user_economy_data g u s with
  | (Except.error e, s₁) => (Except.error e, s₁)
  | (Except.ok row, s₁) =>
      let newBalance := row.balance + change
      match update_user_economy g u
          { balance := some newBalance, participant := some true } s₁ with
      | (Except.error e, s₂) => (Except.error e, s₂)
      | (Except.ok _, s₂) =>
          match log_economy_action g u action change ty target s₂ with
          | (Except.error e, s₃) => (Except.error e, s₃)
          | (Except.ok _, s₃) => (Except.ok newBalance, s₃)

/-- the cache-hit gathering loop of `get_multiple_user_economy_data`:
walk the requested ids, take fresh cache hits, and `remove` each hit from
the to-fetch set (`set.remove` raises `KeyError` on an absent element,
which can only happen for duplicate requested ids). -/
def gatherCacheHits (g : Nat) (s : DBState) :
    List Nat → List Nat → Except PyErr (List EconRow × List Nat)
  | [], toFetch => Except.ok ([], toFetch)
  | uid :: rest, toFetch =>
      match cacheRetrieveEcon g uid s with
      | some row =>
          if uid ∈ toFetch then
            match gatherCacheHits g s rest (toFetch.erase uid) with
            | Except.ok (rows, tf) => Except.ok (row :: rows, tf)
            | Except.error e => Except.error e
          else Except.error PyErr.keyErr
      | none => gatherCacheHits g s rest toFetch

/-- Embeds `get_multiple_user_economy_data(guild_id, user_ids)`: serve fresh
cache hits, then — only when no ids were requested or some ids remain —
fetch the remainder from the store in one query (`eq` on the guild,
`in_` on the remaining ids when any) and backfill the cache.  When every
requested id was a cache hit the guard is skipped and the function falls
through to `return []`, discarding the hits it just collected. -/
def get_multiple_user_economy_data (g : Nat) (user_ids : List Nat)
    (s : DBState) : Except PyErr (List EconRow) × DBState :=
  match gatherCacheHits g s user_ids user_ids.dedup with
  | Except.error e => (Except.error e, s)
  | Except.ok (hits, toFetch) =>
      if user_ids.isEmpty || !toFetch.isEmpty then
        let rows := s.econ.filter (fun r =>
          r.guild_id == toString g &&
          (toFetch.isEmpty || (toFetch.map toString).contains r.user_id))
        (Except.ok (hits ++ rows), rows.foldl (fun st r => cacheUpsertEcon r st) s)
      else
        (Except.ok [], s)

/-- the economy-side view of the state: the components `server_configs`
operations never touch. -/
def econView (s : DBState) :
    List EconRow × List LogRow × (String × String → Option (CacheEntry EconRow)) ×
    Nat × Bool × Nat :=
  (s.econ, s.econLogs, s.econCache, s.now, s.logInsertFails, s.errorReports)

/-- the components no table write ever touches besides the log insert. -/
def coreView (s : DBState) : List LogRow × Nat × Bool × Nat :=
  (s.econLogs, s.now, s.logInsertFails, s.errorReports)

/-- an empty backend: no rows, empty caches, clock at 0, inserts succeed. -/
def emptyDB : DBState :=
  { econ := [], configs := [], econLogs := [],
    econCache := fun _ => none, configCache := fun _ => none,
    now := 0, logInsertFails := false, errorReports := 0 }

def freshEconRow : EconRow :=
  { guild_id := toString 1, user_id := toString 2, balance := 1000,
    last_work := none, last_steal := none, participant := false,
    tiktok := DEFAULT_TIKTOK_DATA }

def c1RowTarget : EconRow :=
  { guild_id := "1", user_id := "2", balance := 1000,
    last_work := none, last_steal := none, participant := true,
    tiktok := DEFAULT_TIKTOK_DATA }

def c1RowOther : EconRow :=
  { guild_id := "9", user_id := "8", balance := 2000,
    last_work := none, last_steal := none, participant := false,
    tiktok := DEFAULT_TIKTOK_DATA }

def c1State : DBState := { emptyDB with econ := [c1RowTarget, c1RowOther] }

def c3Row : EconRow :=
  { guild_id := "1", user_id := "2", balance := 100,
    last_work := none, last_steal := none, participant := true,
    tiktok := DEFAULT_TIKTOK_DATA }

def c3State : DBState := { emptyDB with econ := [c3Row], logInsertFails := true }

def c4PartialEconomy : JObj := [("starting_balance", JVal.jint 250)]

def c4Row : ServerRow :=
  { guild_id := "1", notes := none, cmdPfx := "-", embed_color := "#0000FF",
    allowed_channels := [], economy := c4PartialEconomy,
    moneydrop := DEFAULT_MONEY_DROP_CONFIG,
    update_log := none, config_log := none, streamer := none }

def c4State : DBState := { emptyDB with configs := [c4Row] }

def c8Row : EconRow :=
  { guild_id := "1", user_id := "2", balance := 777,
    last_work := none, last_steal := none, participant := true,
    tiktok := DEFAULT_TIKTOK_DATA }

def c8State : DBState :=
  { emptyDB with
    econ := [c8Row],
    econCache := fun k => if k = ("1", "2") then some ⟨0, c8Row⟩ else none }

/-! ## The game cogs (`src/cogs/blackjack.py`, `src/cogs/roulette.py`)

Discord rendering (embeds, message edits) has no backend effect except
that the helpers it calls (`send_embed` / `get_embed_color` /
`format_currency` / the log-channel checks) each fetch the server
config, which can lazily create and cache it; each such rendering step
is collapsed to one `cfgTouch`.  Randomness (the shuffled deck, the
wheel) is passed in as data.  The outcome of each turn's dual-channel
input race and of the roulette betting view is likewise passed in as
data, which is the only effect the cooperative scheduler has on these
commands. -/

/-- a per-cog `active_games` dictionary: user id ↦ `Optional[Message]`
(a message reference is modelled as `Unit`). -/
def Registry : Type := Nat → Option (Option Unit)

/-- Write `active_games[uid] = v`. -/
def regSet (uid : Nat) (v : Option Unit) (reg : Registry) : Registry :=
  fun k => if k = uid then some v else reg k

/-- Pop `active_games.pop(uid)` (guarded by `if uid in active_games`). -/
def regPop (uid : Nat) (reg : Registry) : Registry :=
  fun k => if k = uid then none else reg k

/-- a playing card, `{'rank': ..., 'suit': ...}`. -/
structure Card where
  rank : String
  suit : String
deriving Repr, DecidableEq

/-- Computes `int(...)` on a numeral string, via the underlying character list
(a real deck only carries the ranks "2".."10" here). -/
def strToNat (s : String) : Nat :=
  s.data.foldl (fun acc ch => acc * 10 + (ch.toNat - 48)) 0

/-- Embeds `BlackjackGame.get_card_value`. -/
def get_card_value (c : Card) : Nat :=
  if c.rank = "J" ∨ c.rank = "Q" ∨ c.rank = "K" then 10
  else if c.rank = "A" then 11
  else strToNat c.rank

/-- the `while value > 21 and num_aces:` adjustment loop. -/
def aceAdjust : Nat → Nat → Nat
  | v, 0 => v
  | v, Nat.succ a => if v > 21 then aceAdjust (v - 10) a else v

/-- Embeds `BlackjackGame.get_hand_value`. -/
def get_hand_value (hand : List Card) : Nat :=
  aceAdjust (hand.map get_card_value).sum
    (hand.filter (fun c => c.rank = "A")).length

/-- Embeds `deal_card`, which pops a uniformly random card; the input deck is the
pre-drawn dealing order, so the next card is the head.  An empty deck
makes `random.randint(0, -1)` raise `ValueError`. -/
def deal : List Card → Option (Card × List Card)
  | [] => none
  | c :: rest => some (c, rest)

/-- the dealer loop `while get_hand_value(dealer_hand) < 17: ... deal`
(structural recursion on the remaining deck; an exhausted deck makes
`deal_card` raise). -/
def dealerPlay (hand : List Card) : List Card → Except PyErr (List Card × List Card)
  | [] =>
      if get_hand_value hand < 17 then Except.error PyErr.valueErr
      else Except.ok (hand, [])
  | c :: rest =>
      if get_hand_value hand < 17 then dealerPlay (hand ++ [c]) rest
      else Except.ok (hand, c :: rest)

/-- the state effect of one rendering step (an awaited helper that
fetches the server config). -/
def cfgTouch (g : Nat) (s : DBState) : DBState := (get_server_config g s).2

/-- how one turn's dual-channel input race resolved: which of the two
sources completed first (`asyncio.wait(..., FIRST_COMPLETED)` with no
`timeout` argument), or an injected exception. -/
inductive TurnInput where
  /-- the `wait_for('message')` task won; its check only lets "h"/"s" through -/
  | chat (content : String) : TurnInput
  /-- the view stopped via the Hit button (`view.action = "hit"`) -/
  | buttonHit : TurnInput
  /-- the view stopped via the Stand button (`view.action = "stand"`) -/
  | buttonStand : TurnInput
  /-- neither source completed within the view's 60 s timeout; `view.wait()`
      returned `True` and `on_timeout` ran -/
  | viewTimeout : TurnInput
  /-- an exception injected during this turn -/
  | raiseExc : TurnInput
deriving Repr, DecidableEq

/-- the `action` value the command computes after the race: a chat
message maps to hit/stand by its content, otherwise `action =
view.action`, which only the two button callbacks ever set and which is
still `None` after a timeout.  No path produces the string "timeout". -/
def resolveAction : TurnInput → Option String
  | TurnInput.chat c => some (if c = "h" then "hit" else "stand")
  | TurnInput.buttonHit => some "hit"
  | TurnInput.buttonStand => some "stand"
  | TurnInput.viewTimeout => none
  | TurnInput.raiseExc => none

/-- how one `blackjack` command invocation ends. -/
inductive BJOutcome where
  | rejected : BJOutcome            -- "You are already in a blackjack game!"
  | badBet : BJOutcome              -- BadArgument from amount parsing
  | nonPositiveBet : BJOutcome
  | insufficientBalance : BJOutcome
  | naturalWin : BJOutcome          -- 21 on the first two cards
  | bust : BJOutcome
  | standWin : BJOutcome
  | standLose : BJOutcome
  | push : BJOutcome
  | timeoutMsg : BJOutcome          -- the `action == "timeout"` branch
  | errored (e : PyErr) : BJOutcome -- an exception escaped the command
  | hung : BJOutcome                -- inputs exhausted: still awaiting the race
deriving Repr, DecidableEq

/-- the `while True:` game loop of the `blackjack` command, one iteration
per race resolution.  Every iteration renders the prompt and stores the
message in the registry; a view timeout makes `on_timeout` pop the
entry, leaves `action` as `None`, matches no dispatch branch, and falls
through to the next iteration. -/
def bjLoop (g uid : Nat) (bet : Int) (player dealer deck : List Card)
    (reg : Registry) (s : DBState) :
    List TurnInput → BJOutcome × Registry × DBState
  | [] =>
      -- the prompt is rendered and registered, but no input ever arrives:
      -- the command blocks in `asyncio.wait` forever
      (BJOutcome.hung, regSet uid (some ()) reg, cfgTouch g s)
  | input :: rest =>
      let s₀ := cfgTouch g s                   -- update_game_embed(view=view)
      let reg₀ := regSet uid (some ()) reg     -- active_games[uid] = view.message
      match input with
      | TurnInput.raiseExc => (BJOutcome.errored PyErr.injected, reg₀, s₀)
      | _ =>
        let reg₁ := if input = TurnInput.viewTimeout then regPop uid reg₀ else reg₀
        let act := resolveAction input
        if act = some "hit" then
          match deal deck with
          | none => (BJOutcome.errored PyErr.valueErr, reg₁, s₀)
          | some (c, deck') =>
              let player' := player ++ [c]
              if get_hand_value player' > 21 then
                match update_user_balance g uid (-bet) "blackjack_loss"
                    Initiator.BOT none s₀ with
                | (Except.error e, s₁) => (BJOutcome.errored e, reg₁, s₁)
                | (Except.ok _, s₁) => (BJOutcome.bust, reg₁, cfgTouch g s₁)
              else
                bjLoop g uid bet player' dealer deck' reg₁ s₀ rest
        else if act = some "stand" then
          match dealerPlay dealer deck with
          | Except.error e => (BJOutcome.errored e, reg₁, s₀)
          | Except.ok (dealer', _) =>
              let s₁ := cfgTouch g s₀          -- final update_game_embed
              let pv := get_hand_value player
              let dv := get_hand_value dealer'
              if dv > 21 ∨ pv > dv then
                match update_user_balance g uid ((3 * bet) / 2) "blackjack_win"
                    Initiator.BOT none s₁ with
                | (Except.error e, s₂) => (BJOutcome.errored e, reg₁, s₂)
                | (Except.ok _, s₂) => (BJOutcome.standWin, reg₁, cfgTouch g s₂)
              else if pv < dv then
                match update_user_balance g uid (-bet) "blackjack_loss"
                    Initiator.BOT none s₁ with
                | (Except.error e, s₂) => (BJOutcome.errored e, reg₁, s₂)
                | (Except.ok _, s₂) => (BJOutcome.standLose, reg₁, cfgTouch g s₂)
              else
                match update_user_balance g uid 0 "blackjack_push"
                    Initiator.BOT none (cfgTouch g s₁) with
                | (Except.error e, s₂) => (BJOutcome.errored e, reg₁, s₂)
                | (Except.ok _, s₂) => (BJOutcome.push, reg₁, s₂)
        else if act = some "timeout" then
          (BJOutcome.timeoutMsg, reg₁, cfgTouch g s₀)
        else
          bjLoop g uid bet player dealer deck reg₁ s₀ rest

/-- the body of the `try:` block of the `blackjack` command. -/
def blackjackBody (g uid : Nat) (betParse : Int → Except Unit Int)
    (deck : List Card) (turns : List TurnInput) (reg : Registry)
    (s : DBState) : BJOutcome × Registry × DBState :=
  match get_user_economy_data g uid s with
  | (Except.error e, s₁) => (BJOutcome.errored e, reg, s₁)
  | (Except.ok userData, s₁) =>
      let balance := userData.balance
      match betParse balance with
      | Except.error _ => (BJOutcome.badBet, reg, s₁)
      | Except.ok bet =>
          if bet ≤ 0 then (BJOutcome.nonPositiveBet, reg, cfgTouch g s₁)
          else if bet > balance then
            (BJOutcome.insufficientBalance, reg, cfgTouch g (cfgTouch g s₁))
          else
            -- start_game: two cards to the player, two to the dealer
            match deck with
            | p1 :: p2 :: d1 :: d2 :: deckRest =>
                let player := [p1, p2]
                let dealer := [d1, d2]
                if get_hand_value player = 21 then
                  match update_user_balance g uid ((3 * bet) / 2) "blackjack_win"
                      Initiator.BOT none s₁ with
                  | (Except.error e, s₂) => (BJOutcome.errored e, reg, s₂)
                  | (Except.ok _, s₂) =>
                      (BJOutcome.naturalWin, reg, cfgTouch g (cfgTouch g s₂))
                else
                  bjLoop g uid bet player dealer deckRest reg s₁ turns
            | _ => (BJOutcome.errored PyErr.valueErr, reg, s₁)

/-- Embeds `BlackjackCog.blackjack`: rejection check (an entry whose stored
message is not `None`), immediate reservation with `None`, the `try:`
body, and the `finally:` pop — which does not run only when the body
never returns (`hung`). -/
def blackjack (g uid : Nat) (betParse : Int → Except Unit Int)
    (deck : List Card) (turns : List TurnInput) (reg : Registry)
    (s : DBState) : BJOutcome × Registry × DBState :=
  match reg uid with
  | some (some _) => (BJOutcome.rejected, reg, cfgTouch g s)
  | _ =>
      match blackjackBody g uid betParse deck turns (regSet uid none reg) s with
      | (BJOutcome.hung, reg', s') => (BJOutcome.hung, reg', s')
      | (o, reg', s') => (o, regPop uid reg', s')

/-- the red squares of the `ROULETTE_NUMBERS` table; 0 is green,
every other number in the table is black. -/
def ROULETTE_RED : List Nat :=
  [1, 3, 5, 7, 9, 12, 14, 16, 18, 19, 21, 23, 25, 27, 30, 32, 34, 36]

/-- Lookup `ROULETTE_NUMBERS[n]` for n in 0..36. -/
def rouletteColor (n : Nat) : String :=
  if n = 0 then "green"
  else if ROULETTE_RED.contains n then "red"
  else "black"

/-- a `bet_choice`: an `int` (single / dozen / row) or a `str`
(color / parity). -/
inductive RChoice where
  | num (n : Nat) : RChoice
  | word (s : String) : RChoice
deriving Repr, DecidableEq

/-- Embeds `RouletteGame.get_winnings` (PAYOUTS: single 35, color 1, parity 1,
dozen 2, row 2).  The row branch tests `bet_type == "rpw"` although the
Row button stores `"row"`, so a row bet falls through to the losing
return; were the `"rpw"` branch ever reached with a matching number it
would raise `KeyError` on `PAYOUTS["column"]`.  An `int`-only operation
applied to a `str` choice raises `TypeError`. -/
def get_winnings (bet : Int) (betType : String) (choice : RChoice)
    (wn : Nat) : Except PyErr Int :=
  let wc := rouletteColor wn
  if betType = "single" then
    if choice = RChoice.num wn then Except.ok (bet * 35) else Except.ok (-bet)
  else if betType = "color" then
    if choice = RChoice.word wc then Except.ok (bet * 1) else Except.ok (-bet)
  else if betType = "parity" then
    if wn ≠ 0 ∧ ((choice = RChoice.word "even" ∧ wn % 2 = 0) ∨
                 (choice = RChoice.word "odd" ∧ wn % 2 ≠ 0)) then
      Except.ok (bet * 1)
    else Except.ok (-bet)
  else if betType = "dozen" then
    match choice with
    | RChoice.num d =>
        if wn ≠ 0 ∧ (d - 1) * 12 < wn ∧ wn ≤ d * 12 then Except.ok (bet * 2)
        else Except.ok (-bet)
    | RChoice.word _ => Except.error PyErr.typeErr
  else if betType = "rpw" then
    match choice with
    | RChoice.num c =>
        if wn ≠ 0 ∧ wn % 3 = c % 3 then Except.error PyErr.keyErr
        else Except.ok (-bet)
    | RChoice.word _ => Except.error PyErr.typeErr
  else Except.ok (-bet)

/-- how the roulette betting view ended. -/
inductive RouletteViewResult where
  /-- the 60 s view timeout fired: `on_timeout` popped the registry entry
      and `bet_type` stayed `None` -/
  | timeout : RouletteViewResult
  /-- the Number flow's inner 30 s wait timed out: `bet_type` was reset to
      `None` and the view stopped (no `on_timeout`) -/
  | numberTimeout : RouletteViewResult
  /-- a bet was placed (`bet_type`/`bet_choice` set) and the view stopped -/
  | bet (betType : String) (choice : RChoice) : RouletteViewResult
deriving Repr, DecidableEq

/-- how one `roulette` command invocation ends. -/
inductive ROutcome where
  | rejected : ROutcome
  | badBet : ROutcome
  | nonPositiveBet : ROutcome
  | insufficientBalance : ROutcome
  | noBet : ROutcome                     -- the view ended without a bet
  | finished (winnings : Int) : ROutcome
  | errored (e : PyErr) : ROutcome
deriving Repr, DecidableEq

/-- the body of the `try:` block of the `roulette` command; `wn` feeds
`random.randint(0, 36)` as `wn % 37`. -/
def rouletteBody (g uid : Nat) (betParse : Int → Except Unit Int)
    (viewRes : RouletteViewResult) (wn : Nat) (reg : Registry)
    (s : DBState) : ROutcome × Registry × DBState :=
  match get_user_economy_data g uid s with
  | (Except.error e, s₁) => (ROutcome.errored e, reg, s₁)
  | (Except.ok userData, s₁) =>
      let balance := userData.balance
      match betParse balance with
      | Except.error _ => (ROutcome.badBet, reg, s₁)
      | Except.ok bet =>
          if bet ≤ 0 then (ROutcome.nonPositiveBet, reg, cfgTouch g s₁)
          else if bet > balance then
            (ROutcome.insufficientBalance, reg, cfgTouch g (cfgTouch g s₁))
          else
            -- the board is sent and the prompt registered
            let reg₁ := regSet uid (some ()) reg
            match viewRes with
            | RouletteViewResult.timeout =>
                -- on_timeout already popped; the explicit
                -- `if user_id in active_games: pop` finds nothing
                (ROutcome.noBet, regPop uid reg₁, s₁)
            | RouletteViewResult.numberTimeout =>
                -- bet_type is None: the explicit pop runs, then return
                (ROutcome.noBet, regPop uid reg₁, s₁)
            | RouletteViewResult.bet bt choice =>
                match get_winnings bet bt choice (wn % 37) with
                | Except.error e => (ROutcome.errored e, reg₁, s₁)
                | Except.ok winnings =>
                    match update_user_balance g uid winnings "roulette_game"
                        Initiator.BOT none s₁ with
                    | (Except.error e, s₂) => (ROutcome.errored e, reg₁, s₂)
                    | (Except.ok _, s₂) =>
                        -- result embed + the economy log-channel check
                        (ROutcome.finished winnings, reg₁,
                         cfgTouch g (cfgTouch g s₂))

/-- Embeds `RouletteCog.roulette`: rejection on mere key presence
(`if user_id in self.active_games:`), the `try:` body, and the
`finally:` pop (roulette has no non-returning path). -/
def roulette (g uid : Nat) (betParse : Int → Except Unit Int)
    (viewRes : RouletteViewResult) (wn : Nat) (reg : Registry)
    (s : DBState) : ROutcome × Registry × DBState :=
  match reg uid with
  | some _ => (ROutcome.rejected, reg, cfgTouch g s)
  | none =>
      match rouletteBody g uid betParse viewRes wn reg s with
      | (o, reg', s') => (o, regPop uid reg', s')

def betParseFail : Int → Except Unit Int := fun _ => Except.error ()

def betParse100 : Int → Except Unit Int := fun _ => Except.ok 100

-- C5 counterexample scenario: user 7 holds a registry entry whose stored
-- message is still None (reserved, prompt not yet rendered).

def c5Reg : Registry := fun k => if k = 7 then some none else none

def c5RegActive : Registry := fun k => if k = 7 then some (some ()) else none

def c6Deck : List Card :=
  [Card.mk "10" "s", Card.mk "9" "s", Card.mk "10" "h", Card.mk "8" "h"]

def c7Deck : List Card :=
  [Card.mk "10" "s", Card.mk "9" "s", Card.mk "10" "h", Card.mk "8" "h"]

def c9Src : JObj := [("economy", JVal.jobj [("x", JVal.jint 1)]), ("p", JVal.jstr "!")]

def c9Dst : JObj := [("economy", JVal.jobj [("y", JVal.jint 2)]), ("q", JVal.jint 7)]

def c9Res : JObj :=
  [("economy", JVal.jobj [("y", JVal.jint 2), ("x", JVal.jint 1)]),
   ("q", JVal.jint 7), ("p", JVal.jstr "!")]

theorem lookupA_setA_self (k : String) (v : JVal) (d : JObj) :
    lookupA k (setA k v d) = some v := by
  induction d with
  | nil => simp [setA, lookupA]
  | cons e rest ih =>
      obtain ⟨k', v'⟩ := e
      by_cases h : k' = k <;> simp [setA, lookupA, h, ih]

theorem lookupA_setA_ne {k k₀ : String} (h : k₀ ≠ k) (v : JVal) (d : JObj) :
    lookupA k (setA k₀ v d) = lookupA k d := by
  induction d with
  | nil => simp [setA, lookupA, h]
  | cons e rest ih =>
      obtain ⟨k', v'⟩ := e
      by_cases h' : k' = k₀
      · subst h'
        simp [setA, lookupA, h]
      · simp [setA, lookupA, h', ih]

theorem lookupA_append_of_none {k : String} {d : JObj} (h : lookupA k d = none)
    (l : JObj) : lookupA k (d ++ l) = lookupA k l := by
  induction d with
  | nil => simp
  | cons e rest ih =>
      obtain ⟨k', v'⟩ := e
      by_cases h' : k' = k
      · simp [lookupA, h'] at h
      · simp only [lookupA, h', if_false] at h
        simpa [lookupA, h'] using ih h

theorem lookupA_append_of_some {k : String} {d : JObj} {v : JVal}
    (h : lookupA k d = some v) (l : JObj) : lookupA k (d ++ l) = some v := by
  induction d with
  | nil => simp [lookupA] at h
  | cons e rest ih =>
      obtain ⟨k', v'⟩ := e
      by_cases h' : k' = k
      · simp only [lookupA, h', if_true] at h
        simp [lookupA, h', h]
      · simp only [lookupA, h', if_false] at h
        simpa [lookupA, h'] using ih h

theorem setA_eq_of_lookup {k : String} {v : JVal} {d : JObj}
    (h : lookupA k d = some v) : setA k v d = d := by
  induction d with
  | nil => simp [lookupA] at h
  | cons e rest ih =>
      obtain ⟨k', v'⟩ := e
      by_cases h' : k' = k
      · simp only [lookupA, h', if_true, Option.some.injEq] at h
        simp [setA, h', h]
      · simp only [lookupA, h', if_false] at h
        simp [setA, h', ih h]

theorem lookupA_none_of_not_contains {k : String} {d : JObj}
    (h : (d.map Prod.fst).contains k = false) : lookupA k d = none := by
  induction d with
  | nil => simp [lookupA]
  | cons e rest ih =>
      obtain ⟨k', v'⟩ := e
      simp only [List.map_cons, List.contains_cons, Bool.or_eq_false_iff] at h
      have hk : k' ≠ k := by
        intro hc; subst hc; simp at h
      simp [lookupA, hk, ih h.2]

theorem lookupA_append_single_ne {k k₀ : String} (h : k₀ ≠ k) (v : JVal) (d : JObj) :
    lookupA k (d ++ [(k₀, v)]) = lookupA k d := by
  cases hl : lookupA k d with
  | some w => exact lookupA_append_of_some hl _
  | none => rw [lookupA_append_of_none hl]; simp [lookupA, h]

theorem wfObj_cons {k : String} {v : JVal} {rest : JObj}
    (h : wfObj ((k, v) :: rest) = true) :
    (rest.map Prod.fst).contains k = false ∧ wfVal v = true ∧ wfObj rest = true := by
  simp only [wfObj, Bool.and_eq_true, Bool.not_eq_true'] at h
  exact ⟨h.1.1, h.1.2, h.2⟩

theorem lookupA_cons_self (k : String) (v : JVal) (rest : JObj) :
    lookupA k ((k, v) :: rest) = some v := by
  simp [lookupA]

theorem lookupA_cons_ne {k k₀ : String} (h : k₀ ≠ k) (v : JVal) (rest : JObj) :
    lookupA k ((k₀, v) :: rest) = lookupA k rest := by
  simp [lookupA, h]

theorem deep_merge_lookup :
    ∀ (src dst : JObj), wfObj src = true → ∀ res, deep_merge src dst = some res → ∀ k,
      (lookupA k src = none → lookupA k res = lookupA k dst) ∧
      (∀ v, lookupA k src = some v → isObj v = false → lookupA k res = some v) ∧
      (∀ m, lookupA k src = some (JVal.jobj m) →
        ((∀ n, lookupA k dst = some (JVal.jobj n) →
            ∃ n', deep_merge m n = some n' ∧ lookupA k res = some (JVal.jobj n')) ∧
         (lookupA k dst = none →
            ∃ n', deep_merge m [] = some n' ∧ lookupA k res = some (JVal.jobj n')) ∧
         (∀ w, lookupA k dst = some w → isObj w = false →
            m = [] ∧ lookupA k res = some w))) := by
  intro src dst
  induction src, dst using deep_merge.induct with
  | case1 dst =>
      intro _ res hres k
      simp only [deep_merge, Option.some.injEq] at hres
      subst hres
      refine ⟨fun _ => rfl, fun v hv _ => by simp [lookupA] at hv, fun m hm => ?_⟩
      simp [lookupA] at hm
  | case2 k₀ m rest dst n hdst n' hmn ihm ihrest =>
      intro hw res hres k
      obtain ⟨hc, _, hwrest⟩ := wfObj_cons hw
      simp only [deep_merge, hdst, hmn] at hres
      have IH := ihrest hwrest res hres k
      by_cases hk : k₀ = k
      · subst hk
        have hnone : lookupA k₀ rest = none := lookupA_none_of_not_contains hc
        have h1 := IH.1 hnone
        rw [lookupA_setA_self] at h1
        refine ⟨fun habs => by simp [lookupA] at habs,
                fun v hv' hobj => ?_, fun m' hm' => ?_⟩
        · rw [lookupA_cons_self] at hv'
          injection hv' with hv'
          subst hv'; simp [isObj] at hobj
        · rw [lookupA_cons_self] at hm'
          injection hm' with hm'
          injection hm' with hm'
          subst hm'
          refine ⟨fun n₂ hn₂ => ?_, fun hn₂ => ?_, fun w hw' hwobj => ?_⟩
          · rw [hdst] at hn₂
            injection hn₂ with hn₂
            injection hn₂ with hn₂
            subst hn₂
            exact ⟨n', hmn, h1⟩
          · rw [hdst] at hn₂; cases hn₂
          · rw [hdst] at hw'
            injection hw' with hw'
            subst hw'; simp [isObj] at hwobj
      · have hsrc : ∀ x, lookupA k ((k₀, JVal.jobj m) :: rest) = x ↔ lookupA k rest = x := by
          intro x; simp [lookupA, hk]
        have hd' : lookupA k (setA k₀ (JVal.jobj n') dst) = lookupA k dst :=
          lookupA_setA_ne hk _ _
        refine ⟨fun hn => ?_, fun v hv' hobj => ?_, fun m' hm' => ?_⟩
        · rw [← hd']; exact IH.1 ((hsrc none).1 hn)
        · exact IH.2.1 v ((hsrc (some v)).1 hv') hobj
        · have IH3 := IH.2.2 m' ((hsrc (some (JVal.jobj m'))).1 hm')
          rw [hd'] at IH3
          exact IH3
  | case3 k₀ m rest dst n hdst hmn ihm =>
      intro hw res hres k
      simp [deep_merge, hdst, hmn] at hres
  | case4 k₀ m rest dst val hvalobj hdst hm ihrest =>
      intro hw res hres k
      obtain ⟨hc, _, hwrest⟩ := wfObj_cons hw
      simp only [deep_merge, hdst, hm, if_true] at hres
      have IH := ihrest hwrest res hres k
      by_cases hk : k₀ = k
      · subst hk
        have hnone : lookupA k₀ rest = none := lookupA_none_of_not_contains hc
        have h1 := IH.1 hnone
        rw [hdst] at h1
        refine ⟨fun habs => by simp [lookupA] at habs,
                fun v hv' hobj => ?_, fun m' hm' => ?_⟩
        · rw [lookupA_cons_self] at hv'
          injection hv' with hv'
          subst hv'; simp [isObj] at hobj
        · rw [lookupA_cons_self] at hm'
          injection hm' with hm'
          injection hm' with hm'
          subst hm'
          refine ⟨fun n₂ hn₂ => ?_, fun hn₂ => ?_, fun w hw' hwobj => ?_⟩
          · rw [hdst] at hn₂
            injection hn₂ with hn₂
            exact hvalobj n₂ hn₂ |>.elim
          · rw [hdst] at hn₂; cases hn₂
          · rw [hdst] at hw'
            injection hw' with hw'
            subst hw'
            exact ⟨List.isEmpty_iff.1 hm, h1⟩
      · have hsrc : ∀ x, lookupA k ((k₀, JVal.jobj m) :: rest) = x ↔ lookupA k rest = x := by
          intro x; simp [lookupA, hk]
        refine ⟨fun hn => IH.1 ((hsrc none).1 hn),
                fun v hv' hobj => IH.2.1 v ((hsrc (some v)).1 hv') hobj,
                fun m' hm' => IH.2.2 m' ((hsrc (some (JVal.jobj m'))).1 hm')⟩
  | case5 k₀ m rest dst val hvalobj hdst hm =>
      intro hw res hres k
      simp [deep_merge, hdst, hm] at hres
  | case6 k₀ m rest dst hdst n' hmn ihm ihrest =>
      intro hw res hres k
      obtain ⟨hc, _, hwrest⟩ := wfObj_cons hw
      simp only [deep_merge, hdst, hmn] at hres
      have IH := ihrest hwrest res hres k
      by_cases hk : k₀ = k
      · subst hk
        have hnone : lookupA k₀ rest = none := lookupA_none_of_not_contains hc
        have h1 := IH.1 hnone
        rw [lookupA_append_of_none hdst, lookupA_cons_self] at h1
        refine ⟨fun habs => by simp [lookupA] at habs,
                fun v hv' hobj => ?_, fun m' hm' => ?_⟩
        · rw [lookupA_cons_self] at hv'
          injection hv' with hv'
          subst hv'; simp [isObj] at hobj
        · rw [lookupA_cons_self] at hm'
          injection hm' with hm'
          injection hm' with hm'
          subst hm'
          refine ⟨fun n₂ hn₂ => ?_, fun _ => ⟨n', hmn, h1⟩, fun w hw' hwobj => ?_⟩
          · rw [hdst] at hn₂; cases hn₂
          · rw [hdst] at hw'; cases hw'
      · have hsrc : ∀ x, lookupA k ((k₀, JVal.jobj m) :: rest) = x ↔ lookupA k rest = x := by
          intro x; simp [lookupA, hk]
        have hd' : lookupA k (dst ++ [(k₀, JVal.jobj n')]) = lookupA k dst :=
          lookupA_append_single_ne hk _ _
        refine ⟨fun hn => ?_, fun v hv' hobj => ?_, fun m' hm' => ?_⟩
        · rw [← hd']; exact IH.1 ((hsrc none).1 hn)
        · exact IH.2.1 v ((hsrc (some v)).1 hv') hobj
        · have IH3 := IH.2.2 m' ((hsrc (some (JVal.jobj m'))).1 hm')
          rw [hd'] at IH3
          exact IH3
  | case7 k₀ m rest dst hdst hmn ihm =>
      intro hw res hres k
      simp [deep_merge, hdst, hmn] at hres
  | case8 k₀ v₀ rest dst hv₀ ihrest =>
      intro hw res hres k
      obtain ⟨hc, _, hwrest⟩ := wfObj_cons hw
      have hmerge : deep_merge ((k₀, v₀) :: rest) dst = deep_merge rest (setA k₀ v₀ dst) := by
        cases v₀ with
        | jobj m => exact absurd rfl (hv₀ m)
        | jnull => simp [deep_merge]
        | jbool b => simp [deep_merge]
        | jint n => simp [deep_merge]
        | jfloat a b => simp [deep_merge]
        | jstr s => simp [deep_merge]
        | jlist l => simp [deep_merge]
      rw [hmerge] at hres
      have IH := ihrest hwrest res hres k
      by_cases hk : k₀ = k
      · subst hk
        have hnone : lookupA k₀ rest = none := lookupA_none_of_not_contains hc
        have h1 := IH.1 hnone
        rw [lookupA_setA_self] at h1
        refine ⟨fun habs => by simp [lookupA] at habs,
                fun v hv' hobj => ?_, fun m' hm' => ?_⟩
        · rw [lookupA_cons_self] at hv'
          injection hv' with hv'
          subst hv'; exact h1
        · rw [lookupA_cons_self] at hm'
          injection hm' with hm'
          exact absurd hm' (fun h => hv₀ m' h)
      · have hsrc : ∀ x, lookupA k ((k₀, v₀) :: rest) = x ↔ lookupA k rest = x := by
          intro x; simp [lookupA, hk]
        have hd' : lookupA k (setA k₀ v₀ dst) = lookupA k dst :=
          lookupA_setA_ne hk _ _
        refine ⟨fun hn => ?_, fun v hv' hobj => ?_, fun m' hm' => ?_⟩
        · rw [← hd']; exact IH.1 ((hsrc none).1 hn)
        · exact IH.2.1 v ((hsrc (some v)).1 hv') hobj
        · have IH3 := IH.2.2 m' ((hsrc (some (JVal.jobj m'))).1 hm')
          rw [hd'] at IH3
          exact IH3

theorem wfVal_obj (m : JObj) : wfVal (JVal.jobj m) = wfObj m := by
  simp [wfVal]

theorem deep_merge_idem_aux :
    ∀ (src dst : JObj), wfObj src = true → ∀ res, deep_merge src dst = some res →
      deep_merge src res = some res := by
  intro src dst
  induction src, dst using deep_merge.induct with
  | case1 dst =>
      intro _ res hres
      simp [deep_merge]
  | case2 k₀ m rest dst n hdst n' hmn ihm ihrest =>
      intro hw res hres
      obtain ⟨hc, hvm, hwrest⟩ := wfObj_cons hw
      rw [wfVal_obj] at hvm
      simp only [deep_merge, hdst, hmn] at hres
      have hnone : lookupA k₀ rest = none := lookupA_none_of_not_contains hc
      have hLres : lookupA k₀ res = some (JVal.jobj n') := by
        have h1 := (deep_merge_lookup rest _ hwrest res hres k₀).1 hnone
        rwa [lookupA_setA_self] at h1
      have hmn' : deep_merge m n' = some n' := ihm hvm n' hmn
      have hset : setA k₀ (JVal.jobj n') res = res := setA_eq_of_lookup hLres
      simp only [deep_merge, hLres, hmn', hset]
      exact ihrest hwrest res hres
  | case3 k₀ m rest dst n hdst hmn ihm =>
      intro hw res hres
      simp [deep_merge, hdst, hmn] at hres
  | case4 k₀ m rest dst val hvalobj hdst hm ihrest =>
      intro hw res hres
      obtain ⟨hc, _, hwrest⟩ := wfObj_cons hw
      simp only [deep_merge, hdst, hm, if_true] at hres
      have hnone : lookupA k₀ rest = none := lookupA_none_of_not_contains hc
      have hLres : lookupA k₀ res = some val := by
        have h1 := (deep_merge_lookup rest _ hwrest res hres k₀).1 hnone
        rwa [hdst] at h1
      have hrest' := ihrest hwrest res hres
      cases val with
      | jobj w => exact (hvalobj w rfl).elim
      | jnull => simp only [deep_merge, hLres, hm, if_true]; exact hrest'
      | jbool b => simp only [deep_merge, hLres, hm, if_true]; exact hrest'
      | jint n => simp only [deep_merge, hLres, hm, if_true]; exact hrest'
      | jfloat a b => simp only [deep_merge, hLres, hm, if_true]; exact hrest'
      | jstr s => simp only [deep_merge, hLres, hm, if_true]; exact hrest'
      | jlist l => simp only [deep_merge, hLres, hm, if_true]; exact hrest'
  | case5 k₀ m rest dst val hvalobj hdst hm =>
      intro hw res hres
      simp [deep_merge, hdst, hm] at hres
  | case6 k₀ m rest dst hdst n' hmn ihm ihrest =>
      intro hw res hres
      obtain ⟨hc, hvm, hwrest⟩ := wfObj_cons hw
      rw [wfVal_obj] at hvm
      simp only [deep_merge, hdst, hmn] at hres
      have hnone : lookupA k₀ rest = none := lookupA_none_of_not_contains hc
      have hLres : lookupA k₀ res = some (JVal.jobj n') := by
        have h1 := (deep_merge_lookup rest _ hwrest res hres k₀).1 hnone
        rwa [lookupA_append_of_none hdst, lookupA_cons_self] at h1
      have hmn' : deep_merge m n' = some n' := ihm hvm n' hmn
      have hset : setA k₀ (JVal.jobj n') res = res := setA_eq_of_lookup hLres
      simp only [deep_merge, hLres, hmn', hset]
      exact ihrest hwrest res hres
  | case7 k₀ m rest dst hdst hmn ihm =>
      intro hw res hres
      simp [deep_merge, hdst, hmn] at hres
  | case8 k₀ v₀ rest dst hv₀ ihrest =>
      intro hw res hres
      obtain ⟨hc, _, hwrest⟩ := wfObj_cons hw
      have hmerge : deep_merge ((k₀, v₀) :: rest) dst = deep_merge rest (setA k₀ v₀ dst) := by
        cases v₀ with
        | jobj m => exact (hv₀ m rfl).elim
        | jnull => simp [deep_merge]
        | jbool b => simp [deep_merge]
        | jint n => simp [deep_merge]
        | jfloat a b => simp [deep_merge]
        | jstr s => simp [deep_merge]
        | jlist l => simp [deep_merge]
      rw [hmerge] at hres
      have hnone : lookupA k₀ rest = none := lookupA_none_of_not_contains hc
      have hLres : lookupA k₀ res = some v₀ := by
        have h1 := (deep_merge_lookup rest _ hwrest res hres k₀).1 hnone
        rwa [lookupA_setA_self] at h1
      have hset : setA k₀ v₀ res = res := setA_eq_of_lookup hLres
      have hrest' := ihrest hwrest res hres
      cases v₀ with
      | jobj m => exact (hv₀ m rfl).elim
      | jnull => simp only [deep_merge, hset]; exact hrest'
      | jbool b => simp only [deep_merge, hset]; exact hrest'
      | jint n => simp only [deep_merge, hset]; exact hrest'
      | jfloat a b => simp only [deep_merge, hset]; exact hrest'
      | jstr s => simp only [deep_merge, hset]; exact hrest'
      | jlist l => simp only [deep_merge, hset]; exact hrest'

theorem cacheUpsertConfig_econView (row : ServerRow) (s : DBState) :
    econView (cacheUpsertConfig row s) = econView s := by
  unfold cacheUpsertConfig econView
  split <;> rfl

theorem foldlUpsertConfig_econView (l : List ServerRow) (s : DBState) :
    econView (l.foldl (fun st r => cacheUpsertConfig r st) s) = econView s := by
  induction l generalizing s with
  | nil => rfl
  | cons r rest ih => rw [List.foldl_cons, ih, cacheUpsertConfig_econView]

theorem createConfig_econView (row : ServerRow) (s : DBState) :
    econView (createConfig row s) = econView s := by
  unfold createConfig
  rw [cacheUpsertConfig_econView]
  rfl

theorem retrieveConfig_econView (g : Nat) (s : DBState) :
    econView ((retrieveConfig g s).2) = econView s := by
  unfold retrieveConfig
  cases cacheRetrieveConfig g s with
  | some row => rfl
  | none => exact foldlUpsertConfig_econView _ _

theorem get_server_config_econView (g : Nat) (s : DBState) :
    econView ((get_server_config g s).2) = econView s := by
  unfold get_server_config
  cases h : retrieveConfig g s with
  | mk rows s₁ =>
      have h₁ : econView s₁ = econView s := by
        have := retrieveConfig_econView g s
        rwa [h] at this
      cases rows with
      | nil => simpa [createConfig_econView] using h₁
      | cons r rest => simpa using h₁

theorem cacheUpsertEcon_coreView (row : EconRow) (s : DBState) :
    coreView (cacheUpsertEcon row s) = coreView s := by
  unfold cacheUpsertEcon coreView
  split <;> rfl

theorem foldlUpsertEcon_coreView (l : List EconRow) (s : DBState) :
    coreView (l.foldl (fun st r => cacheUpsertEcon r st) s) = coreView s := by
  induction l generalizing s with
  | nil => rfl
  | cons r rest ih => rw [List.foldl_cons, ih, cacheUpsertEcon_coreView]

theorem foldlUpsertEcon_econ (l : List EconRow) (s : DBState) :
    (l.foldl (fun st r => cacheUpsertEcon r st) s).econ = s.econ := by
  induction l generalizing s with
  | nil => rfl
  | cons r rest ih =>
      rw [List.foldl_cons, ih]
      unfold cacheUpsertEcon
      split <;> rfl

theorem econView_coreView {s t : DBState} (h : econView s = econView t) :
    coreView s = coreView t := by
  unfold econView at h
  unfold coreView
  simp only [Prod.mk.injEq] at h ⊢
  exact ⟨h.2.1, h.2.2.2.1, h.2.2.2.2⟩

theorem retrieveEcon_coreView (g u : Nat) (s : DBState) :
    coreView ((retrieveEcon g u s).2) = coreView s := by
  unfold retrieveEcon
  cases cacheRetrieveEcon g u s with
  | some row => rfl
  | none => exact foldlUpsertEcon_coreView _ _

theorem retrieveEcon_econ (g u : Nat) (s : DBState) :
    ((retrieveEcon g u s).2).econ = s.econ := by
  unfold retrieveEcon
  cases cacheRetrieveEcon g u s with
  | some row => rfl
  | none => exact foldlUpsertEcon_econ _ _

theorem createEcon_coreView (row : EconRow) (s : DBState) :
    coreView (createEcon row s) = coreView s := by
  unfold createEcon
  rw [cacheUpsertEcon_coreView]
  rfl

theorem get_user_economy_data_coreView (g u : Nat) (s : DBState) :
    coreView ((get_user_economy_data g u s).2) = coreView s := by
  unfold get_user_economy_data
  split
  next row rest s₁ heq =>
      have h₁ := retrieveEcon_coreView g u s
      rw [heq] at h₁
      exact h₁
  next s₁ heq =>
      have h₁ := retrieveEcon_coreView g u s
      rw [heq] at h₁
      split
      next cfg s₂ hcfg =>
        have h₂ := econView_coreView (get_server_config_econView g s₁)
        rw [hcfg] at h₂
        split
        next sb hl => simpa [createEcon_coreView] using h₂.trans h₁
        next v hne hl => exact h₂.trans h₁
        next hl => exact h₂.trans h₁

theorem updateEconTable_coreView (a : EconAttrs) (c : EconConds) (s : DBState) :
    coreView (updateEconTable a c s) = coreView s := by
  unfold updateEconTable
  rw [foldlUpsertEcon_coreView]
  rfl

theorem updateEconTable_econ (a : EconAttrs) (c : EconConds) (s : DBState) :
    (updateEconTable a c s).econ =
      s.econ.map (fun r => if econMatches c r then applyEconAttrs a r else r) := by
  unfold updateEconTable
  rw [foldlUpsertEcon_econ]

theorem econMatches_empty (r : EconRow) : econMatches {} r = true := by
  rfl

theorem coreView_eq_iff {s t : DBState} :
    coreView s = coreView t ↔
      s.econLogs = t.econLogs ∧ s.now = t.now ∧
      s.logInsertFails = t.logInsertFails ∧ s.errorReports = t.errorReports := by
  unfold coreView
  simp [Prod.ext_iff]

/-- C2: `mutateBalance(g, u, delta, actionTag, initiatorKind)` ensures the
EconomyRecord exists (lazily creating it with the guild's configured
starting balance — hypothesis `h1` names the record the ensure step
returns), computes `newBalance = currentBalance + delta` with no floor or
ceiling, persists `{balance: newBalance, participant: true}` for the
target record (hypothesis `hex`: a stored row for the
pair exists after the ensure step, which is an invariant of every
reachable state since cache entries are only ever written together with
store rows), appends exactly one LedgerEntry carrying the same
guild/user/delta/actionTag/initiatorKind, and returns `newBalance`. -/
theorem update_user_balance_spec (s s₁ : DBState) (g u : Nat) (delta : Int)
    (action : String) (ty : Initiator) (r : EconRow)
    (hlog : s.logInsertFails = false)
    (h1 : get_user_economy_data g u s = (Except.ok r, s₁))
    (hex : ∃ row ∈ s₁.econ, row.guild_id = toString g ∧ row.user_id = toString u) :
    (update_user_balance g u delta action ty none s).1 = Except.ok (r.balance + delta) ∧
    ((update_user_balance g u delta action ty none s).2).econLogs =
      s.econLogs ++
        [LogRow.mk (toString g) (toString u) action delta ty none (toString s.now)] ∧
    (∃ row ∈ ((update_user_balance g u delta action ty none s).2).econ,
        row.guild_id = toString g ∧ row.user_id = toString u) ∧
    (∀ row ∈ ((update_user_balance g u delta action ty none s).2).econ,
        row.guild_id = toString g → row.user_id = toString u →
        row.balance = r.balance + delta ∧ row.participant = true) := by
  have hcore₁ : coreView s₁ = coreView s := by
    have h := get_user_economy_data_coreView g u s
    rw [h1] at h
    exact h
  obtain ⟨hlogs₁, hnow₁, hfail₁, herr₁⟩ := coreView_eq_iff.1 hcore₁
  set a : EconAttrs := { balance := some (r.balance + delta), participant := some true } with ha
  have hupd : update_user_economy g u a s₁ = (Except.ok (), updateEconTable a {} s₁) := by
    unfold update_user_economy
    simp [ha, econAttrsEmpty]
  set s₂ := updateEconTable a {} s₁ with hs₂
  have hcore₂ : coreView s₂ = coreView s₁ := updateEconTable_coreView a {} s₁
  obtain ⟨hlogs₂, hnow₂, hfail₂, herr₂⟩ := coreView_eq_iff.1 hcore₂
  have hfail : s₂.logInsertFails = false := by rw [hfail₂, hfail₁, hlog]
  have hrun : update_user_balance g u delta action ty none s =
      (Except.ok (r.balance + delta),
       { s₂ with econLogs := s₂.econLogs ++
          [LogRow.mk (toString g) (toString u) action delta ty none
            (toString s₂.now)] }) := by
    unfold update_user_balance
    rw [h1]
    dsimp only
    rw [← ha, hupd]
    dsimp only
    unfold log_economy_action
    rw [hfail]
    simp only [Bool.false_eq_true, if_false]
  have hecon : s₂.econ = s₁.econ.map (applyEconAttrs a) := by
    rw [hs₂, updateEconTable_econ]
    simp [econMatches_empty]
  refine ⟨by rw [hrun], ?_, ?_, ?_⟩
  · rw [hrun]
    simp only [hlogs₂, hlogs₁, hnow₂, hnow₁]
  · rw [hrun]
    obtain ⟨row, hmem, hg, hu⟩ := hex
    exact ⟨applyEconAttrs a row, by
      simp only [hecon]
      exact ⟨List.mem_map_of_mem _ hmem, by simp [applyEconAttrs, hg], by simp [applyEconAttrs, hu]⟩⟩
  · rw [hrun]
    intro row hmem hg hu
    simp only [hecon, List.mem_map] at hmem
    obtain ⟨row₀, _, hrow⟩ := hmem
    subst hrow
    simp [applyEconAttrs, ha]

/-- C2 witness: end-to-end scenario 1 — new guild, new user, default
starting balance 1000; `mutateBalance(1, 2, +500, "work", USER)` returns
1500 and appends one LedgerEntry with amount 500. -/
theorem update_user_balance_spec_witness :
    (update_user_balance 1 2 500 "work" Initiator.USER none emptyDB).1 =
      Except.ok (freshEconRow.balance + 500) ∧
    ((update_user_balance 1 2 500 "work" Initiator.USER none emptyDB).2).econLogs =
      emptyDB.econLogs ++
        [LogRow.mk (toString 1) (toString 2) "work" 500 Initiator.USER none
          (toString emptyDB.now)] ∧
    (update_user_balance 1 2 500 "work" Initiator.USER none emptyDB).1 =
      Except.ok 1500 := by
  have h1 : get_user_economy_data 1 2 emptyDB =
      (Except.ok freshEconRow, (get_user_economy_data 1 2 emptyDB).2) := rfl
  have hex : ∃ row ∈ ((get_user_economy_data 1 2 emptyDB).2).econ,
      row.guild_id = toString 1 ∧ row.user_id = toString 2 := by
    refine ⟨freshEconRow, ?_, rfl, rfl⟩
    show freshEconRow ∈ [freshEconRow]
    exact List.mem_singleton_self _
  have h := update_user_balance_spec emptyDB _ 1 2 500 "work" Initiator.USER
    freshEconRow rfl h1 hex
  exact ⟨h.1, h.2.1, by rfl⟩

-- C1 scenario: two unrelated records in the economy table.

/-- C1: the claim states that every `mutateBalance` persists through a store
update filtered by an equality conjunction identifying the target
`(guildID, userID)` record, leaving every other record's balance and
participant fields unchanged.  The code violates this:
`update_user_economy` calls `update("economy", update_data)` with no
conditions, so the PATCH carries no filter and hits every row.  Evaluated
on a store holding the target `("1","2")` (balance 1000) and an unrelated
`("9","8")` (balance 2000, participant false), `mutateBalance(1, 2, +500)`
rewrites both rows to balance 1500 / participant true. -/
theorem unfiltered_economy_update_hits_other_records :
    (((update_user_balance 1 2 500 "work" Initiator.USER none c1State).2).econ.map
      (fun r => (r.guild_id, r.user_id, r.balance, r.participant))) =
      [("1", "2", 1500, true), ("9", "8", 1500, true)] := by
  rfl

-- C3 scenario: the ledger insert fails after the balance was persisted.

/-- C3 counterexample: the claim states a ledger-append failure after a
successful balance persist "is not a fatal error for the caller of
mutateBalance".  In the code `log_economy_action` re-raises
(`raise e`) and `update_user_balance` does not catch, so the call
raises to its caller: on a store where the ledger insert fails, the
call returns the error — after the balance (100 + 500 = 600) was
already persisted and with no ledger row appended. -/
theorem log_failure_fatal_counterexample :
    (update_user_balance 1 2 500 "work" Initiator.USER none c3State).1 =
      Except.error PyErr.dbErr ∧
    (((update_user_balance 1 2 500 "work" Initiator.USER none c3State).2).econ.map
      (fun r => r.balance)) = [600] ∧
    ((update_user_balance 1 2 500 "work" Initiator.USER none c3State).2).econLogs = [] := by
  exact ⟨rfl, rfl, rfl⟩

/-- C3 (amended): if the ledger append fails after the balance persist
succeeded, the failure is reported (one `logger.error` report) and the
already-applied balance change is not reversed, but the exception
propagates to the caller of `mutateBalance` (the call raises instead of
returning the new balance), and the ledger keeps a gap. -/
theorem log_failure_reported_balance_kept (s s₁ : DBState) (g u : Nat) (delta : Int)
    (action : String) (ty : Initiator) (r : EconRow)
    (hlog : s.logInsertFails = true)
    (h1 : get_user_economy_data g u s = (Except.ok r, s₁)) :
    (update_user_balance g u delta action ty none s).1 = Except.error PyErr.dbErr ∧
    ((update_user_balance g u delta action ty none s).2).errorReports =
      s.errorReports + 1 ∧
    ((update_user_balance g u delta action ty none s).2).econLogs = s.econLogs ∧
    (∀ row ∈ ((update_user_balance g u delta action ty none s).2).econ,
        row.guild_id = toString g → row.user_id = toString u →
        row.balance = r.balance + delta ∧ row.participant = true) := by
  have hcore₁ : coreView s₁ = coreView s := by
    have h := get_user_economy_data_coreView g u s
    rw [h1] at h
    exact h
  obtain ⟨hlogs₁, hnow₁, hfail₁, herr₁⟩ := coreView_eq_iff.1 hcore₁
  set a : EconAttrs := { balance := some (r.balance + delta), participant := some true } with ha
  have hupd : update_user_economy g u a s₁ = (Except.ok (), updateEconTable a {} s₁) := by
    unfold update_user_economy
    simp [ha, econAttrsEmpty]
  set s₂ := updateEconTable a {} s₁ with hs₂
  have hcore₂ : coreView s₂ = coreView s₁ := updateEconTable_coreView a {} s₁
  obtain ⟨hlogs₂, hnow₂, hfail₂, herr₂⟩ := coreView_eq_iff.1 hcore₂
  have hfail : s₂.logInsertFails = true := by rw [hfail₂, hfail₁, hlog]
  have hrun : update_user_balance g u delta action ty none s =
      (Except.error PyErr.dbErr,
       { s₂ with errorReports := s₂.errorReports + 1 }) := by
    unfold update_user_balance
    rw [h1]
    dsimp only
    rw [← ha, hupd]
    dsimp only
    unfold log_economy_action
    rw [hfail]
    simp only [if_true]
  have hecon : s₂.econ = s₁.econ.map (applyEconAttrs a) := by
    rw [hs₂, updateEconTable_econ]
    simp [econMatches_empty]
  refine ⟨by rw [hrun], ?_, ?_, ?_⟩
  · rw [hrun]
    simp only [herr₂, herr₁]
  · rw [hrun]
    simp only [hlogs₂, hlogs₁]
  · rw [hrun]
    intro row hmem hg hu
    simp only [hecon, List.mem_map] at hmem
    obtain ⟨row₀, _, hrow⟩ := hmem
    subst hrow
    simp [applyEconAttrs, ha]

/-- C3 witness: the amended behaviour at a concrete store whose ledger
insert fails. -/
theorem log_failure_reported_witness :
    (update_user_balance 1 2 500 "work" Initiator.USER none c3State).1 =
      Except.error PyErr.dbErr ∧
    ((update_user_balance 1 2 500 "work" Initiator.USER none c3State).2).errorReports =
      c3State.errorReports + 1 ∧
    ((update_user_balance 1 2 500 "work" Initiator.USER none c3State).2).econLogs =
      c3State.econLogs := by
  have h1 : get_user_economy_data 1 2 c3State =
      (Except.ok c3Row, (get_user_economy_data 1 2 c3State).2) := rfl
  have h := log_failure_reported_balance_kept c3State _ 1 2 500 "work"
    Initiator.USER c3Row rfl h1
  exact ⟨h.1, h.2.1, h.2.2.1⟩

-- C4 scenario: a stored config whose economy sub-document is partial.

/-- C4 counterexample: the claim states every returned GuildConfig's
economy settings equal the deep-merge of the stored partial onto the
baseline defaults, so no baseline key is ever missing.  With a stored
config whose economy sub-document only holds `starting_balance`,
`get_server_config` returns it as-is: the baseline key
`work_min_amount` is absent from the returned document although the
deep-merge onto `DEFAULT_ECONOMY_CONFIG` would contain it (value 50). -/
theorem get_server_config_partial_counterexample :
    lookupA "work_min_amount" ((get_server_config 1 c4State).1).economy = none ∧
    (deep_merge c4PartialEconomy DEFAULT_ECONOMY_CONFIG).map
      (fun d => lookupA "work_min_amount" d) = some (some (JVal.jint 50)) := by
  constructor
  · rfl
  · simp [deep_merge, lookupA, setA, DEFAULT_ECONOMY_CONFIG, c4PartialEconomy]

/-- C4 (amended): `getGuildConfig` performs no load-time merge: when a
stored document exists, the first retrieved row is returned verbatim
(partial economy sub-documents keep their missing keys); the complete
baseline `DEFAULT_ECONOMY_CONFIG` appears only in the default document
synthesized when nothing is stored. -/
theorem get_server_config_no_merge :
    (∀ (g : Nat) (s s₁ : DBState) (row : ServerRow) (rest : List ServerRow),
       retrieveConfig g s = (row :: rest, s₁) → get_server_config g s = (row, s₁)) ∧
    (∀ (g : Nat) (s s₁ : DBState), retrieveConfig g s = ([], s₁) →
       (get_server_config g s).1.economy = DEFAULT_ECONOMY_CONFIG) := by
  constructor
  · intro g s s₁ row rest h
    unfold get_server_config
    rw [h]
  · intro g s s₁ h
    unfold get_server_config
    rw [h]
    rfl

/-- C4 witness: the stored partial config of the counterexample state is
returned verbatim, still lacking `work_min_amount`. -/
theorem get_server_config_no_merge_witness :
    get_server_config 1 c4State = (c4Row, (retrieveConfig 1 c4State).2) ∧
    lookupA "work_min_amount" c4Row.economy = none := by
  constructor
  · exact get_server_config_no_merge.1 1 c4State _ c4Row [] rfl
  · rfl

-- C8 scenario: the single requested id is a fresh cache hit.

/-- C8: the claim states that when every requested identifier is a fresh
cache hit, the cached records are returned.  The code gathers the hits
but the store-fetch guard `if not user_ids or user_ids_to_fetch:` is
then false, and the function falls through to `return []`: with
`("1","2")` fresh in the cache, `get_multiple_user_economy_data(1, [2])`
returns the empty list instead of the cached record. -/
theorem get_multiple_cache_hit_returns_empty :
    cacheRetrieveEcon 1 2 c8State = some c8Row ∧
    (get_multiple_user_economy_data 1 [2] c8State).1 = Except.ok [] := by
  exact ⟨rfl, rfl⟩

/-- C5 counterexample: the claim states that a user already holding an
entry in the session registry is rejected when starting a second game of
the same family.  Blackjack's check is
`user_id in active_games and active_games[user_id] is not None`, so a
reserved entry whose stored message is still `None` (the state between
reservation and the first rendered prompt, and for the whole immediate-
blackjack path) does not reject: with registry `{7: None}` the second
command proceeds past the check (here to the bet-parsing return), and is
not rejected. -/
theorem blackjack_reserved_entry_not_rejected :
    c5Reg 7 = some none ∧
    (blackjack 1 7 betParseFail [] [] c5Reg emptyDB).1 = BJOutcome.badBet ∧
    (blackjack 1 7 betParseFail [] [] c5Reg emptyDB).1 ≠ BJOutcome.rejected := by
  refine ⟨rfl, rfl, ?_⟩
  intro h
  rw [show (blackjack 1 7 betParseFail [] [] c5Reg emptyDB).1 = BJOutcome.badBet
    from rfl] at h
  cases h

/-- C5 (amended): roulette rejects on mere registry-key presence, while
blackjack rejects only when the stored entry holds a rendered prompt
reference (not `None`); in both cases the rejection returns before the
`try` block, so the registry is returned unchanged (no second entry) and
the only state effect is the rejection message's config read, which
leaves the economy table, ledger and economy cache untouched. -/
theorem session_rejection_spec :
    (∀ (g uid : Nat) (bp : Int → Except Unit Int) (vr : RouletteViewResult)
       (wn : Nat) (reg : Registry) (s : DBState) (v : Option Unit),
       reg uid = some v →
       roulette g uid bp vr wn reg s = (ROutcome.rejected, reg, cfgTouch g s)) ∧
    (∀ (g uid : Nat) (bp : Int → Except Unit Int) (deck : List Card)
       (turns : List TurnInput) (reg : Registry) (s : DBState),
       reg uid = some (some ()) →
       blackjack g uid bp deck turns reg s = (BJOutcome.rejected, reg, cfgTouch g s)) ∧
    (∀ (g : Nat) (s : DBState), econView (cfgTouch g s) = econView s) := by
  refine ⟨?_, ?_, ?_⟩
  · intro g uid bp vr wn reg s v h
    unfold roulette
    rw [h]
  · intro g uid bp deck turns reg s h
    unfold blackjack
    rw [h]
  · intro g s
    exact get_server_config_econView g s

/-- C5 witness: with an active entry for user 7 both commands reject and
leave the registry unchanged. -/
theorem session_rejection_spec_witness :
    roulette 1 7 betParseFail RouletteViewResult.timeout 0 c5RegActive emptyDB =
      (ROutcome.rejected, c5RegActive, cfgTouch 1 emptyDB) ∧
    blackjack 1 7 betParseFail [] [] c5RegActive emptyDB =
      (BJOutcome.rejected, c5RegActive, cfgTouch 1 emptyDB) := by
  constructor
  · exact session_rejection_spec.1 1 7 betParseFail RouletteViewResult.timeout 0
      c5RegActive emptyDB (some ()) rfl
  · exact session_rejection_spec.2.1 1 7 betParseFail [] [] c5RegActive emptyDB rfl

/-- C6: for every game command execution that terminates — win, loss,
push, bust, natural blackjack, no-bet timeout, early return on a
validation failure, or an exception raised mid-session — the session
registry afterwards contains no entry for that user: the `finally:` pop
runs on every such exit path.  Excluded are the two paths on which the
command does not terminate a session of its own: the rejection of a
duplicate command (which by C5 must not touch the existing session's
entry) and a blackjack command still blocked awaiting input (`hung`). -/
theorem session_cleanup_spec :
    (∀ (g uid : Nat) (bp : Int → Except Unit Int) (deck : List Card)
       (turns : List TurnInput) (reg : Registry) (s : DBState),
       (blackjack g uid bp deck turns reg s).1 ≠ BJOutcome.rejected →
       (blackjack g uid bp deck turns reg s).1 ≠ BJOutcome.hung →
       ((blackjack g uid bp deck turns reg s).2.1) uid = none) ∧
    (∀ (g uid : Nat) (bp : Int → Except Unit Int) (vr : RouletteViewResult)
       (wn : Nat) (reg : Registry) (s : DBState),
       (roulette g uid bp vr wn reg s).1 ≠ ROutcome.rejected →
       ((roulette g uid bp vr wn reg s).2.1) uid = none) := by
  constructor
  · intro g uid bp deck turns reg s hrej hhung
    unfold blackjack at hrej hhung ⊢
    rcases hbody : blackjackBody g uid bp deck turns (regSet uid none reg) s
      with ⟨o, reg', s'⟩
    cases hmem : reg uid with
    | none =>
        rw [hmem] at hrej hhung
        cases o <;> simp_all [regPop]
    | some v =>
        cases v with
        | none =>
            rw [hmem] at hrej hhung
            cases o <;> simp_all [regPop]
        | some m =>
            rw [hmem] at hrej
            simp at hrej
  · intro g uid bp vr wn reg s hrej
    unfold roulette at hrej ⊢
    rcases hbody : rouletteBody g uid bp vr wn reg s with ⟨o, reg', s'⟩
    cases hmem : reg uid with
    | some v =>
        rw [hmem] at hrej
        simp at hrej
    | none =>
        rw [hmem] at hrej
        simp [regPop]

/-- C6 witness: a finished blackjack game (stand, player 19 vs dealer 18)
and a timed-out roulette prompt both leave no registry entry. -/
theorem session_cleanup_spec_witness :
    ((blackjack 1 2 betParse100 c6Deck [TurnInput.buttonStand]
        (fun _ => none) emptyDB).2.1) 2 = none ∧
    ((roulette 1 2 betParse100 RouletteViewResult.timeout 0
        (fun _ => none) emptyDB).2.1) 2 = none := by
  constructor
  · refine session_cleanup_spec.1 1 2 betParse100 c6Deck [TurnInput.buttonStand]
      (fun _ => none) emptyDB ?_ ?_
    · rw [show (blackjack 1 2 betParse100 c6Deck [TurnInput.buttonStand]
        (fun _ => none) emptyDB).1 = BJOutcome.standWin from rfl]
      decide
    · rw [show (blackjack 1 2 betParse100 c6Deck [TurnInput.buttonStand]
        (fun _ => none) emptyDB).1 = BJOutcome.standWin from rfl]
      decide
  · refine session_cleanup_spec.2 1 2 betParse100 RouletteViewResult.timeout 0
      (fun _ => none) emptyDB ?_
    rw [show (roulette 1 2 betParse100 RouletteViewResult.timeout 0
      (fun _ => none) emptyDB).1 = ROutcome.noBet from rfl]
    decide

/-- C7: the claim states that when neither input source completes before
the shared timeout, the race resolves to a Timeout action and the game
ends.  In the code nothing ever produces the action "timeout" (the
`asyncio.wait` call has no timeout argument and `view.action` stays
`None` when the view times out), so the `action == "timeout"` branch is
unreachable: a turn whose race resolves by view timeout matches no
dispatch branch and falls through to a fresh prompt — with only that
input the command is still awaiting (`hung`), and the game ends only if
a later input (here a stand) arrives.  The first-completer-wins half of
the claim is `asyncio` behaviour outside the embedding. -/
theorem view_timeout_not_timeout_action :
    (∀ i : TurnInput, resolveAction i ≠ some "timeout") ∧
    (blackjack 1 2 betParse100 c7Deck [TurnInput.viewTimeout]
      (fun _ => none) emptyDB).1 = BJOutcome.hung ∧
    (blackjack 1 2 betParse100 c7Deck
      [TurnInput.viewTimeout, TurnInput.buttonStand] (fun _ => none) emptyDB).1 =
      BJOutcome.standWin := by
  refine ⟨?_, rfl, rfl⟩
  intro i
  cases i with
  | chat c =>
      by_cases hc : c = "h" <;> simp [resolveAction, hc]
  | buttonHit => decide
  | buttonStand => decide
  | viewTimeout => decide
  | raiseExc => decide

/-- C9 counterexample: the claim quantifies over every pair of mappings
and states that for a source key holding a nested mapping the merge
recurses into the corresponding destination mapping, creating it when
absent.  When the destination holds a non-mapping value under that key,
`setdefault` returns that value and the recursion raises (here a
`TypeError`, from item assignment on the int `5`) as soon as the
non-empty source sub-dict writes into it:
`merge({"a": {"b": 1}}, {"a": 5})` raises, so no merged destination
with the claimed properties exists. -/
theorem deep_merge_leaf_collision_counterexample :
    deep_merge [("a", JVal.jobj [("b", JVal.jint 1)])] [("a", JVal.jint 5)] = none := by
  simp [deep_merge, lookupA]

/-- C9 (amended): when `merge(source, destination)` returns (does not
raise), then for every key of source: a non-mapping value overwrites the
destination value; a mapping value is recursively merged into the
destination's mapping under that key (an absent key gets a fresh empty
mapping first), while a non-mapping destination value survives only
because the source mapping was empty (a non-empty one makes the call
raise, per the counterexample); and every key of destination not present
in source keeps its value.  Keys of a mapping are unique (`wfObj`), and
the source — a value in this embedding — is not modified. -/
theorem deep_merge_spec_amended (src dst res : JObj)
    (hw : wfObj src = true) (h : deep_merge src dst = some res) :
    (∀ k v, lookupA k src = some v → isObj v = false → lookupA k res = some v) ∧
    (∀ k, lookupA k src = none → lookupA k res = lookupA k dst) ∧
    (∀ k m, lookupA k src = some (JVal.jobj m) →
       (∀ n, lookupA k dst = some (JVal.jobj n) →
          ∃ n', deep_merge m n = some n' ∧ lookupA k res = some (JVal.jobj n')) ∧
       (lookupA k dst = none →
          ∃ n', deep_merge m [] = some n' ∧ lookupA k res = some (JVal.jobj n')) ∧
       (∀ w, lookupA k dst = some w → isObj w = false →
          m = [] ∧ lookupA k res = some w)) := by
  refine ⟨fun k v hv hobj => (deep_merge_lookup src dst hw res h k).2.1 v hv hobj,
          fun k hk => (deep_merge_lookup src dst hw res h k).1 hk,
          fun k m hm => (deep_merge_lookup src dst hw res h k).2.2 m hm⟩

/-- C9 witness: merging a partial `{"economy": {"x": 1}, "p": "!"}` onto
`{"economy": {"y": 2}, "q": 7}` overwrites "p", keeps "q", and
recursively merges "economy". -/
theorem deep_merge_spec_amended_witness :
    lookupA "p" c9Res = some (JVal.jstr "!") ∧
    lookupA "q" c9Res = lookupA "q" c9Dst ∧
    lookupA "economy" c9Res =
      some (JVal.jobj [("y", JVal.jint 2), ("x", JVal.jint 1)]) := by
  have hm : deep_merge c9Src c9Dst = some c9Res := by
    simp [deep_merge, lookupA, setA, c9Src, c9Dst, c9Res]
  have h := deep_merge_spec_amended c9Src c9Dst c9Res (by simp [wfObj, wfVal, c9Src]) hm
  refine ⟨h.1 "p" (JVal.jstr "!") (by simp [lookupA, c9Src]) rfl,
          h.2.1 "q" (by simp [lookupA, c9Src]), ?_⟩
  obtain ⟨n', hmn, hres⟩ :=
    (h.2.2 "economy" [("x", JVal.jint 1)] (by simp [lookupA, c9Src])).1
      [("y", JVal.jint 2)] (by simp [lookupA, c9Dst])
  have hn : some [("y", JVal.jint 2), ("x", JVal.jint 1)] = some n' := by
    rw [← hmn]
    simp [deep_merge, lookupA, setA]
  rw [hres]
  injection hn with hn
  rw [hn]

/-- C10: the deep-merge is idempotent in its first argument:
`merge(X, merge(X, D)) = merge(X, D)` for every partial mapping `X`
(unique keys at every level, as for any Python dict) and baseline `D` —
including the case where the merge raises, on which both sides raise. -/
theorem deep_merge_idem (X D : JObj) (hw : wfObj X = true) :
    (deep_merge X D).bind (deep_merge X) = deep_merge X D := by
  cases h : deep_merge X D with
  | none => rfl
  | some R =>
      have := deep_merge_idem_aux X D hw R h
      simpa [Option.bind] using this

/-- C10 witness: idempotence evaluated on the concrete C9 documents. -/
theorem deep_merge_idem_witness :
    (deep_merge c9Src c9Dst).bind (deep_merge c9Src) = deep_merge c9Src c9Dst := by
  exact deep_merge_idem c9Src c9Dst (by simp [wfObj, wfVal, c9Src])

end BowBot
